import Mathlib

/-!
Verification of `samples/openai-acs-msgraph/server/typescript/openAI.ts`.

The module post-processes chat-completion replies.  Network calls
(`fetch` / the OpenAI SDK) and the JavaScript builtin `JSON.parse` are
external: they are modelled as parameters (`Except`-valued oracles), so
every theorem quantifies over all possible replies and parse outcomes.
Everything the module itself computes is translated below.
-/

/-- Model of a JavaScript/JSON value (`JSON.parse` results, object fields). -/
inductive JsValue where
  | null : JsValue
  | bool : Bool → JsValue
  | num : Int → JsValue
  | str : String → JsValue
  | arr : List JsValue → JsValue
  | obj : List (String × JsValue) → JsValue

/-- A JavaScript object: ordered fields with unique keys
(property insertion order, as JS object literals produce). -/
abbrev Obj := List (String × JsValue)

/-- Property read `o.k`: `none` models JavaScript `undefined`. -/
def getField (o : Obj) (k : String) : Option JsValue :=
  match o with
  | [] => none
  | (k', v) :: rest => if k' = k then some v else getField rest k

/-- Property write `o.k = v`: replaces an existing key in place
(JS keeps the original property order) or appends a fresh key. -/
def setField (o : Obj) (k : String) (v : JsValue) : Obj :=
  match o with
  | [] => [(k, v)]
  | (k', v') :: rest => if k' = k then (k, v) :: rest else (k', v') :: setField rest k v

/-- Object spread `\x7b ...base, ...upd \x7d`: fields of `upd` override
`base`, fresh fields are appended in `upd`'s order. -/
def mergeObj (base : Obj) (upd : Obj) : Obj :=
  upd.foldl (fun acc p => setField acc p.1 p.2) base

/-- JavaScript falsiness of a possibly-undefined value
(`undefined`, `null`, `''`, `0`, `false` are falsy). -/
def jsFalsy (v : Option JsValue) : Bool :=
  match v with
  | none => true
  | some JsValue.null => true
  | some (JsValue.bool b) => !b
  | some (JsValue.num n) => n == 0
  | some (JsValue.str s) => s == ""
  | some (JsValue.arr _) => false
  | some (JsValue.obj _) => false

/-- The character `'\x7b'` (left curly brace), by code point. -/
def lbrace : Char := Char.ofNat 123

/-- The character `'\x7d'` (right curly brace), by code point. -/
def rbrace : Char := Char.ofNat 125

/-- Boolean list-prefix test (helper for the JS string builtins). -/
def isPrefixB : List Char → List Char → Bool
  | [], _ => true
  | _ :: _, [] => false
  | a :: as, b :: bs => a == b && isPrefixB as bs

/-- Boolean list-infix test (helper for JS `String.prototype.includes`). -/
def isInfixB (needle : List Char) : List Char → Bool
  | [] => isPrefixB needle []
  | b :: bs => isPrefixB needle (b :: bs) || isInfixB needle bs

/-- JS `s.includes(sub)`: `sub` occurs as a contiguous substring of `s`. -/
def jsIncludes (s sub : String) : Bool :=
  isInfixB sub.toList s.toList

/-- JS `s.startsWith(pre)`. -/
def jsStartsWith (s pre : String) : Bool :=
  isPrefixB pre.toList s.toList

/-- JS `s.endsWith(suf)`. -/
def jsEndsWith (s suf : String) : Bool :=
  isPrefixB suf.toList.reverse s.toList.reverse

/-- JS `s.toLowerCase()` (ASCII lowering, which is all the module needs:
the keyword list and the replies compared against it are ASCII). -/
def jsToLower (s : String) : String :=
  String.mk (s.toList.map Char.toLower)

/-!
`extractJson` (source lines 97-106):

    function extractJson(content: string) \x7b
        const regex = /\\\x7b(?:[^\x7b\x7d]|\x7b[^\x7b\x7d]*\x7d)*\\\x7d/g;
        const match = content.match(regex);
        if (match) \x7b return match[0]; \x7d else \x7b return ''; \x7d
    \x7d

`content.match` with a global regex returns all matches, and `match[0]`
is the leftmost one.  The regex is: an opening brace, then repetitions
of either a non-brace character or one complete nested group
`\x7b[^\x7b\x7d]*\x7d`, then a closing brace.  Matching this regex is
deterministic: the two alternatives are distinguished by their first
character, neither alternative can consume a bare `\x7d`, so the
repetition always ends at the first reachable bare `\x7d`, and when the
engine backtracks one repetition it re-lands on the first character of
that repetition, which is never `\x7d` — so backtracking can never turn
a failure into a success.  `matchBody` below is that deterministic scan
as a two-state automaton on the characters after the opening brace
(state `false`: at nesting level one; state `true`: inside a nested
group, where another opening brace aborts the match).
-/

/-- The scan for the regex body after an opening brace; returns the
matched characters (including the final closing brace) or `none`. -/
def matchBody : List Char → Bool → Option (List Char)
  | [], _ => none
  | c :: rest, false =>
    if c = rbrace then some [rbrace]
    else if c = lbrace then (matchBody rest true).map (fun t => c :: t)
    else (matchBody rest false).map (fun t => c :: t)
  | c :: rest, true =>
    if c = rbrace then (matchBody rest false).map (fun t => c :: t)
    else if c = lbrace then none
    else (matchBody rest true).map (fun t => c :: t)

/-- A regex match attempt anchored at the head of the list. -/
def matchAt (l : List Char) : Option (List Char) :=
  match l with
  | [] => none
  | c :: rest => if c = lbrace then (matchBody rest false).map (fun t => c :: t) else none

/-- The leftmost regex match in the list, or `none`. -/
def firstMatch : List Char → Option (List Char)
  | [] => none
  | c :: rest =>
    match matchAt (c :: rest) with
    | some m => some m
    | none => firstMatch rest

/-- The function `extractJson` from the source: the first brace-balanced (one nesting
level) substring, or the empty string. -/
def extractJson (content : String) : String :=
  match firstMatch content.toList with
  | some m => String.mk m
  | none => ""

/-- The denylist from `isProhibitedQuery` (source lines 150-157), in
source order. -/
def prohibitedKeywords : List String :=
  ["insert", "update", "delete", "drop", "truncate", "alter", "create", "replace",
   "information_schema", "pg_catalog", "pg_tables", "pg_namespace", "pg_class",
   "table_schema", "table_name", "column_name", "column_default", "is_nullable",
   "data_type", "udt_name", "character_maximum_length", "numeric_precision",
   "numeric_scale", "datetime_precision", "interval_type", "collation_name",
   "grant", "revoke", "rollback", "commit", "savepoint", "vacuum", "analyze"]

/-- The function `isProhibitedQuery` (source lines 147-160) on a string argument:
`if (!query) return false;` then a lower-cased substring check against
the keyword list. -/
def isProhibitedQuery (query : String) : Bool :=
  if query = "" then false
  else prohibitedKeywords.any (fun keyword => jsIncludes (jsToLower query) keyword)

/-- The function `isProhibitedQuery` as actually invoked by `getSQL`: its argument is
a field of the `JSON.parse` result, so it may be `undefined` or a
non-string.  A falsy argument returns `false` at `if (!query)`;
a truthy non-string reaches `query.toLowerCase()` and throws a
`TypeError` (modelled as `Except.error`). -/
def isProhibitedQueryJs (v : Option JsValue) : Except String Bool :=
  if jsFalsy v then Except.ok false
  else
    match v with
    | some (JsValue.str s) => Except.ok (isProhibitedQuery s)
    | _ => Except.error "TypeError: query.toLowerCase is not a function"

/-- The short-circuit condition
`isProhibitedQuery(queryData.sql) || isProhibitedQuery(queryData.error)`
from `getSQL` (source line 137), with a thrown `TypeError` propagated. -/
def flagCheck (j : Obj) : Except String Bool :=
  match isProhibitedQueryJs (getField j "sql") with
  | Except.error e => Except.error e
  | Except.ok true => Except.ok true
  | Except.ok false => isProhibitedQueryJs (getField j "error")

/-- The shape test `results && results.startsWith('\x7b') && results.endsWith('\x7d')`
used by both flows (source lines 132 and 193). -/
def jsonShaped (results : String) : Bool :=
  results != "" && jsStartsWith results "\x7b" && jsEndsWith results "\x7d"

/-- Tail of `getAzureOpenAICompletion` (source lines 42-46), applied to
the already-trimmed first choice content:
`if (content && content.includes('\x7b') && content.includes('\x7d')) content = extractJson(content);`
then `return content;`. -/
def getAzureOpenAICompletionPost (content : String) : String :=
  if content != "" && jsIncludes content "\x7b" && jsIncludes content "\x7d" then
    extractJson content
  else content

/-- Tail of `getOpenAICompletion` (source lines 74-79), applied to the
already-trimmed first choice content.  Note the source applies
`extractJson` unconditionally first:
`let content = extractJson(completion.data.choices[0]?.message?.content?.trim() ?? '');`
and only then runs the same conditional reduction as the Azure path. -/
def getOpenAICompletionPost (rawContent : String) : String :=
  let content := extractJson rawContent
  if content != "" && jsIncludes content "\x7b" && jsIncludes content "\x7d" then
    extractJson content
  else content

/-- The default `QueryData` accumulator of `getSQL` (source line 130):
`let queryData: QueryData = \x7b sql: '', paramValues: [], error: '' \x7d;`. -/
def defaultQueryData : Obj :=
  [("sql", JsValue.str ""), ("paramValues", JsValue.arr []), ("error", JsValue.str "")]

/-- The function `getSQL` (source lines 108-145).  `readResult` is the outcome of
`await fs.promises.readFile('db.schema', 'utf8')` — executed BEFORE the
`try` block, so its failure propagates (`Except.error`).  `callResult`
is the outcome of `await callOpenAI(...)` (the reply string, or a thrown
error), and `parseFn` is the `JSON.parse` builtin (a brace-shaped string
that parses successfully yields an object).  The `catch` logs and
swallows, returning whatever `queryData` holds at the throw point. -/
def getSQLModel (readResult : Except String String)
    (callResult : Except String String)
    (parseFn : String → Except String Obj) : Except String Obj :=
  match readResult with
  | Except.error e => Except.error e
  | Except.ok _ =>
    match callResult with
    | Except.error _ => Except.ok defaultQueryData
    | Except.ok results =>
      if jsonShaped results then
        match parseFn results with
        | Except.error _ => Except.ok defaultQueryData
        | Except.ok j =>
          match flagCheck j with
          | Except.error _ => Except.ok j
          | Except.ok true =>
            Except.ok (setField (setField j "sql" (JsValue.str ""))
              "error" (JsValue.str "Prohibited query."))
          | Except.ok false => Except.ok j
      else
        let q := setField defaultQueryData "error" (JsValue.str results)
        match flagCheck q with
        | Except.error _ => Except.ok q
        | Except.ok true =>
          Except.ok (setField (setField q "sql" (JsValue.str ""))
            "error" (JsValue.str "Prohibited query."))
        | Except.ok false => Except.ok q

/-- The default `EmailSmsResponse` accumulator of `completeEmailSMSMessages`
(source line 190):
`let content: EmailSmsResponse = \x7b status: false, email: '', sms: '', error: '' \x7d;`. -/
def defaultEmailSms : Obj :=
  [("status", JsValue.bool false), ("email", JsValue.str ""),
   ("sms", JsValue.str ""), ("error", JsValue.str "")]

/-- The function `completeEmailSMSMessages` (source lines 162-208), from the `try`
body on (the prompt construction does not affect the result, since the
completion reply is the `callResult` parameter).  On a brace-shaped
reply the source executes
`content = \x7b content, ...JSON.parse(results) \x7d;` — an object
literal whose FIRST property is named `content` and holds the previous
accumulator (it is not a `...content` spread) — and then
`content.status = true;`.  Otherwise `content.error = results;`.
The whole body is wrapped in a catch that logs and swallows. -/
def completeEmailSMSMessagesModel (callResult : Except String String)
    (parseFn : String → Except String Obj) : Obj :=
  match callResult with
  | Except.error _ => defaultEmailSms
  | Except.ok results =>
    if jsonShaped results then
      match parseFn results with
      | Except.error _ => defaultEmailSms
      | Except.ok j =>
        let c := mergeObj [("content", JsValue.obj defaultEmailSms)] j
        setField c "status" (JsValue.bool true)
    else
      setField defaultEmailSms "error" (JsValue.str results)

/-!
Specification-side grammar for claim C9: the spec describes the
extractor's output as "the first substring that starts with a left
brace, ends with the matching right brace, and is balanced to one level
of nesting (a brace, any non-brace characters or one complete nested
group, repeated, closing brace)".
-/

/-- A character that is not a curly brace. -/
def isNonBrace (c : Char) : Bool :=
  c != lbrace && c != rbrace

/-- The body of a one-level-balanced group: a sequence of items, each a
single non-brace character or one complete nested group
(brace, non-brace characters, brace). -/
inductive BodyItems : List Char → Prop where
  | nil : BodyItems []
  | chr {c : Char} {rest : List Char} :
      isNonBrace c = true → BodyItems rest → BodyItems (c :: rest)
  | grp {inner rest : List Char} :
      (∀ c ∈ inner, isNonBrace c = true) → BodyItems rest →
      BodyItems (lbrace :: (inner ++ rbrace :: rest))

/-- A string (as a character list) that is a balanced one-level JSON-ish
object text: opening brace, body items, matching closing brace. -/
def BalancedOne (l : List Char) : Prop :=
  ∃ body, l = lbrace :: (body ++ [rbrace]) ∧ BodyItems body

/-- A field value as `getSQL`'s filter can safely consume it: absent
(`undefined`) or a string. -/
def strOrNone (v : Option JsValue) : Prop :=
  v = none ∨ ∃ s, v = some (JsValue.str s)

/-- The flag the Safety Filter computes on such a field. -/
def prohibitedOpt (v : Option JsValue) : Bool :=
  match v with
  | some (JsValue.str s) => isProhibitedQuery s
  | _ => false

/-- A one-entry `JSON.parse` oracle for concrete instances: parses the
designated reply to the designated object, throws on any other string. -/
def parseOracle (r : String) (j : Obj) : String → Except String Obj :=
  fun s => if s = r then Except.ok j else Except.error "SyntaxError: Unexpected token"

/-! ### Object field lemmas -/

theorem getField_setField_same (o : Obj) (k : String) (v : JsValue) :
    getField (setField o k v) k = some v := by
  induction o with
  | nil => simp [setField, getField]
  | cons p rest ih =>
    obtain ⟨k', v'⟩ := p
    by_cases h : k' = k
    · simp [setField, getField, h]
    · simp [setField, getField, h, ih]

theorem getField_setField_ne (o : Obj) (k k' : String) (v : JsValue) (h : k' ≠ k) :
    getField (setField o k v) k' = getField o k' := by
  induction o with
  | nil =>
    simp only [setField, getField]
    rw [if_neg (fun hh => h hh.symm)]
  | cons p rest ih =>
    obtain ⟨k0, v0⟩ := p
    by_cases hk : k0 = k
    · subst hk
      have hne : k0 ≠ k' := fun hh => h hh.symm
      simp [setField, getField, hne]
    · by_cases hk' : k0 = k'
      · subst hk'
        simp [setField, getField, h]
      · simp [setField, getField, hk, hk', ih]

/-! ### Prefix / infix boolean tests -/

theorem isPrefixB_iff (n h : List Char) : isPrefixB n h = true ↔ n <+: h := by
  induction n generalizing h with
  | nil => simp [isPrefixB]
  | cons a as ih =>
    cases h with
    | nil => simp [isPrefixB]
    | cons b bs => simp [isPrefixB, ih, List.cons_prefix_cons]

theorem isInfixB_iff (n h : List Char) : isInfixB n h = true ↔ n <:+: h := by
  induction h with
  | nil => simp [isInfixB, isPrefixB_iff]
  | cons b bs ih =>
    rw [isInfixB]
    simp [isPrefixB_iff, ih, List.infix_cons_iff]

theorem jsIncludes_iff (s sub : String) : jsIncludes s sub = true ↔ sub.toList <:+: s.toList := by
  simp [jsIncludes, isInfixB_iff]

theorem jsIncludes_lbrace_iff (s : String) : jsIncludes s "\x7b" = true ↔ lbrace ∈ s.toList := by
  rw [jsIncludes_iff]
  constructor
  · intro hin
    have : lbrace ∈ ("\x7b" : String).toList := by decide
    exact hin.subset this
  · intro hm
    obtain ⟨pre, post, hsp⟩ := List.append_of_mem hm
    exact ⟨pre, post, by simpa using hsp.symm⟩

theorem jsIncludes_rbrace_iff (s : String) : jsIncludes s "\x7d" = true ↔ rbrace ∈ s.toList := by
  rw [jsIncludes_iff]
  constructor
  · intro hin
    have : rbrace ∈ ("\x7d" : String).toList := by decide
    exact hin.subset this
  · intro hm
    obtain ⟨pre, post, hsp⟩ := List.append_of_mem hm
    exact ⟨pre, post, by simpa using hsp.symm⟩

/-! ### The extractor's scan against the balanced-one-level grammar -/

theorem lbrace_ne_rbrace : lbrace ≠ rbrace := by decide

theorem isNonBrace_ne {c : Char} (h : isNonBrace c = true) : c ≠ lbrace ∧ c ≠ rbrace := by
  simp [isNonBrace] at h
  exact h

theorem matchBody_false_rbrace (rest : List Char) :
    matchBody (rbrace :: rest) false = some [rbrace] := by
  simp [matchBody]

theorem matchBody_false_lbrace (rest : List Char) :
    matchBody (lbrace :: rest) false = (matchBody rest true).map (fun t => lbrace :: t) := by
  simp [matchBody, lbrace_ne_rbrace]

theorem matchBody_false_chr {c : Char} (hc : isNonBrace c = true) (rest : List Char) :
    matchBody (c :: rest) false = (matchBody rest false).map (fun t => c :: t) := by
  obtain ⟨hl, hr⟩ := isNonBrace_ne hc
  simp [matchBody, hl, hr]

theorem matchBody_true_rbrace (rest : List Char) :
    matchBody (rbrace :: rest) true = (matchBody rest false).map (fun t => rbrace :: t) := by
  simp [matchBody]

theorem matchBody_true_lbrace (rest : List Char) :
    matchBody (lbrace :: rest) true = none := by
  simp [matchBody, lbrace_ne_rbrace]

theorem matchBody_true_chr {c : Char} (hc : isNonBrace c = true) (rest : List Char) :
    matchBody (c :: rest) true = (matchBody rest true).map (fun t => c :: t) := by
  obtain ⟨hl, hr⟩ := isNonBrace_ne hc
  simp [matchBody, hl, hr]

theorem matchBody_true_append {inner : List Char} (hinner : ∀ c ∈ inner, isNonBrace c = true)
    (z : List Char) :
    matchBody (inner ++ rbrace :: z) true
      = (matchBody z false).map (fun t => inner ++ rbrace :: t) := by
  induction inner with
  | nil => simp [matchBody_true_rbrace]
  | cons c inner' ih =>
    have hc : isNonBrace c = true := hinner c (List.mem_cons_self c inner')
    have ih' := ih (fun d hd => hinner d (List.mem_cons_of_mem c hd))
    rw [List.cons_append, matchBody_true_chr hc, ih', Option.map_map]
    rfl

theorem matchBody_complete {b : List Char} (hb : BodyItems b) (rest : List Char) :
    matchBody (b ++ rbrace :: rest) false = some (b ++ [rbrace]) := by
  induction hb generalizing rest with
  | nil => simp [matchBody_false_rbrace]
  | chr hc hb' ih =>
    rename_i c b'
    rw [List.cons_append, matchBody_false_chr hc, ih rest]
    rfl
  | grp hinner hb' ih =>
    rename_i inner b'
    have assoc : (lbrace :: (inner ++ rbrace :: b')) ++ rbrace :: rest
        = lbrace :: (inner ++ rbrace :: (b' ++ rbrace :: rest)) := by simp
    rw [assoc, matchBody_false_lbrace, matchBody_true_append hinner, ih rest]
    simp

theorem matchBody_sound (l : List Char) :
    (∀ m, matchBody l false = some m →
      ∃ b r, l = b ++ rbrace :: r ∧ m = b ++ [rbrace] ∧ BodyItems b) ∧
    (∀ m, matchBody l true = some m →
      ∃ inner b r, (∀ c ∈ inner, isNonBrace c = true) ∧
        l = inner ++ rbrace :: (b ++ rbrace :: r) ∧
        m = inner ++ rbrace :: (b ++ [rbrace]) ∧ BodyItems b) := by
  induction l with
  | nil => constructor <;> intro m hm <;> simp [matchBody] at hm
  | cons c rest ih =>
    constructor
    · intro m hm
      by_cases hr : c = rbrace
      · subst hr
        rw [matchBody_false_rbrace] at hm
        refine ⟨[], rest, rfl, ?_, BodyItems.nil⟩
        exact (Option.some.injEq _ _ ▸ hm).symm
      · by_cases hl : c = lbrace
        · subst hl
          rw [matchBody_false_lbrace, Option.map_eq_some'] at hm
          obtain ⟨m₁, hm₁, hmm⟩ := hm
          obtain ⟨inner, b, r, hinner, hrest, hm₁val, hb⟩ := ih.2 m₁ hm₁
          refine ⟨lbrace :: (inner ++ rbrace :: b), r, ?_, ?_, BodyItems.grp hinner hb⟩
          · rw [hrest]; simp
          · rw [← hmm, hm₁val]; simp
        · have hnb : isNonBrace c = true := by simp [isNonBrace, hl, hr]
          rw [matchBody_false_chr hnb, Option.map_eq_some'] at hm
          obtain ⟨m₁, hm₁, hmm⟩ := hm
          obtain ⟨b, r, hrest, hm₁val, hb⟩ := ih.1 m₁ hm₁
          refine ⟨c :: b, r, ?_, ?_, BodyItems.chr hnb hb⟩
          · rw [hrest]; rfl
          · rw [← hmm, hm₁val]; rfl
    · intro m hm
      by_cases hr : c = rbrace
      · subst hr
        rw [matchBody_true_rbrace, Option.map_eq_some'] at hm
        obtain ⟨m₁, hm₁, hmm⟩ := hm
        obtain ⟨b, r, hrest, hm₁val, hb⟩ := ih.1 m₁ hm₁
        refine ⟨[], b, r, ?_, ?_, ?_, hb⟩
        · intro d hd
          simp at hd
        · rw [hrest]; rfl
        · rw [← hmm, hm₁val]; rfl
      · by_cases hl : c = lbrace
        · subst hl
          rw [matchBody_true_lbrace] at hm
          exact absurd hm (by simp)
        · have hnb : isNonBrace c = true := by simp [isNonBrace, hl, hr]
          rw [matchBody_true_chr hnb, Option.map_eq_some'] at hm
          obtain ⟨m₁, hm₁, hmm⟩ := hm
          obtain ⟨inner, b, r, hinner, hrest, hm₁val, hb⟩ := ih.2 m₁ hm₁
          refine ⟨c :: inner, b, r, ?_, ?_, ?_, hb⟩
          · intro d hd
            rcases List.mem_cons.mp hd with h1 | h2
            · rw [h1]; exact hnb
            · exact hinner d h2
          · rw [hrest]; rfl
          · rw [← hmm, hm₁val]; rfl

theorem matchAt_sound {l m : List Char} (h : matchAt l = some m) :
    BalancedOne m ∧ ∃ r, l = m ++ r := by
  cases l with
  | nil => simp [matchAt] at h
  | cons c rest =>
    by_cases hl : c = lbrace
    · subst hl
      rw [matchAt, if_pos rfl, Option.map_eq_some'] at h
      obtain ⟨m₁, hm₁, hmm⟩ := h
      obtain ⟨b, r, hrest, hm₁val, hb⟩ := (matchBody_sound rest).1 m₁ hm₁
      constructor
      · exact ⟨b, by rw [← hmm, hm₁val], hb⟩
      · refine ⟨r, ?_⟩
        rw [hrest, ← hmm, hm₁val]
        simp
    · rw [matchAt, if_neg hl] at h
      exact absurd h (by simp)

theorem matchAt_complete {m : List Char} (hm : BalancedOne m) (r : List Char) :
    matchAt (m ++ r) = some m := by
  obtain ⟨body, hval, hbody⟩ := hm
  subst hval
  have assoc : (lbrace :: (body ++ [rbrace])) ++ r = lbrace :: (body ++ rbrace :: r) := by simp
  rw [assoc, matchAt, if_pos rfl, matchBody_complete hbody]
  rfl

theorem matchAt_nonbrace {c : Char} (hc : c ≠ lbrace) (l : List Char) :
    matchAt (c :: l) = none := by
  rw [matchAt, if_neg hc]

theorem firstMatch_cons_none {c : Char} (hc : c ≠ lbrace) (l : List Char) :
    firstMatch (c :: l) = firstMatch l := by
  rw [firstMatch, matchAt_nonbrace hc]

theorem firstMatch_balanced_head {m : List Char} (hbal : BalancedOne m) (r : List Char) :
    firstMatch (m ++ r) = some m := by
  have hma : matchAt (m ++ r) = some m := matchAt_complete hbal r
  obtain ⟨body, hval, hbody⟩ := hbal
  subst hval
  have assoc : (lbrace :: (body ++ [rbrace])) ++ r = lbrace :: ((body ++ [rbrace]) ++ r) := rfl
  rw [assoc] at hma ⊢
  rw [firstMatch, hma]

theorem firstMatch_sound {l m : List Char} (h : firstMatch l = some m) :
    ∃ i, matchAt (l.drop i) = some m ∧ ∀ j, j < i → matchAt (l.drop j) = none := by
  induction l with
  | nil => simp [firstMatch] at h
  | cons c rest ih =>
    rw [firstMatch] at h
    cases hma : matchAt (c :: rest) with
    | some m' =>
      rw [hma] at h
      refine ⟨0, ?_, ?_⟩
      · simpa [hma] using h
      · intro j hj
        omega
    | none =>
      rw [hma] at h
      obtain ⟨i, hi, hprev⟩ := ih h
      refine ⟨i + 1, by simpa using hi, ?_⟩
      intro j hj
      cases j with
      | zero => simpa using hma
      | succ j' =>
        have : j' < i := by omega
        simpa using hprev j' this

theorem firstMatch_none {l : List Char} (h : firstMatch l = none) (i : ℕ) :
    matchAt (l.drop i) = none := by
  induction l generalizing i with
  | nil => simp [matchAt]
  | cons c rest ih =>
    rw [firstMatch] at h
    cases hma : matchAt (c :: rest) with
    | some m' => rw [hma] at h; exact absurd h (by simp)
    | none =>
      rw [hma] at h
      cases i with
      | zero => simpa using hma
      | succ i' => simpa using ih h i'

/-- Helper: if a balanced one-level substring is a prefix of `l`, the
anchored match on `l` succeeds with exactly it. -/
theorem matchAt_of_balancedOne {l m : List Char} (hm : BalancedOne m)
    (hpre : m <+: l) : matchAt l = some m := by
  obtain ⟨t, ht⟩ := hpre
  rw [← ht]
  exact matchAt_complete hm t

/-- Main characterization of `extractJson`: either there is no balanced
one-level substring anywhere and the result is empty, or the result is
the balanced substring at the leftmost position carrying one. -/
theorem extractJson_main (s : String) :
    (extractJson s = "" ∧ ∀ i m, BalancedOne m → ¬ m <+: s.toList.drop i) ∨
    (∃ i, BalancedOne (extractJson s).toList ∧ (extractJson s).toList <+: s.toList.drop i ∧
      ∀ j, j < i → ∀ m, BalancedOne m → ¬ m <+: s.toList.drop j) := by
  cases hfm : firstMatch s.toList with
  | none =>
    left
    constructor
    · unfold extractJson
      rw [hfm]
    · intro i m hm hpre
      have := firstMatch_none hfm i
      rw [matchAt_of_balancedOne hm hpre] at this
      exact absurd this (by simp)
  | some m =>
    right
    obtain ⟨i, hi, hprev⟩ := firstMatch_sound hfm
    have hext : (extractJson s).toList = m := by
      unfold extractJson
      rw [hfm]
      rfl
    obtain ⟨hbal, r, hr⟩ := matchAt_sound hi
    refine ⟨i, ?_, ?_, ?_⟩
    · rw [hext]; exact hbal
    · rw [hext]; exact ⟨r, hr.symm⟩
    · intro j hj m' hm' hpre
      have := hprev j hj
      rw [matchAt_of_balancedOne hm' hpre] at this
      exact absurd this (by simp)

/-- Helper: a string missing one of the two braces extracts to empty. -/
theorem extractJson_no_brace {s : String}
    (h : lbrace ∉ s.toList ∨ rbrace ∉ s.toList) : extractJson s = "" := by
  rcases extractJson_main s with ⟨he, _⟩ | ⟨i, hbal, hpre, _⟩
  · exact he
  · exfalso
    obtain ⟨body, hval, _⟩ := hbal
    have hsub : (extractJson s).toList ⊆ s.toList := by
      intro x hx
      exact List.drop_subset i s.toList (hpre.subset hx)
    rcases h with hL | hR
    · exact hL (hsub (by rw [hval]; exact List.mem_cons_self _ _))
    · refine hR (hsub ?_)
      rw [hval]
      exact List.mem_cons_of_mem _ (by simp)

/-- Helper: `extractJson` on noise-wrapped balanced text returns exactly
the balanced text. -/
theorem extractJson_noise (t : String) (hbal : BalancedOne t.toList) :
    extractJson ("noise" ++ t ++ "noise") = t := by
  have hlist : ("noise" ++ t ++ "noise").toList
      = 'n' :: 'o' :: 'i' :: 's' :: 'e' :: (t.toList ++ "noise".toList) := by
    cases t
    rfl
  have hfm : firstMatch (("noise" ++ t ++ "noise").toList) = some t.toList := by
    rw [hlist,
      firstMatch_cons_none (by decide), firstMatch_cons_none (by decide),
      firstMatch_cons_none (by decide), firstMatch_cons_none (by decide),
      firstMatch_cons_none (by decide)]
    exact firstMatch_balanced_head hbal _
  have : extractJson ("noise" ++ t ++ "noise") = String.mk t.toList := by
    unfold extractJson
    rw [hfm]
  rw [this]
  cases t
  rfl

/-! ### Safety-filter evaluation lemmas -/

theorem isProhibitedQueryJs_eq {v : Option JsValue} (h : strOrNone v) :
    isProhibitedQueryJs v = Except.ok (prohibitedOpt v) := by
  rcases h with h | ⟨s, h⟩
  · subst h
    rfl
  · subst h
    by_cases hs : s = ""
    · subst hs
      rfl
    · have hfal : jsFalsy (some (JsValue.str s)) = false := by
        simp [jsFalsy, hs]
      simp [isProhibitedQueryJs, hfal, prohibitedOpt]

theorem flagCheck_eq {j : Obj} (hs : strOrNone (getField j "sql"))
    (he : strOrNone (getField j "error")) :
    flagCheck j
      = Except.ok (prohibitedOpt (getField j "sql") || prohibitedOpt (getField j "error")) := by
  rw [flagCheck, isProhibitedQueryJs_eq hs]
  cases hp : prohibitedOpt (getField j "sql") with
  | true => simp
  | false => simp [isProhibitedQueryJs_eq he]

theorem setField_default_error (res : String) :
    setField defaultQueryData "error" (JsValue.str res)
      = [("sql", JsValue.str ""), ("paramValues", JsValue.arr []), ("error", JsValue.str res)] := by
  simp [defaultQueryData, setField]

theorem flagCheck_fallback (res : String) :
    flagCheck [("sql", JsValue.str ""), ("paramValues", JsValue.arr []), ("error", JsValue.str res)]
      = Except.ok (isProhibitedQuery res) := by
  have hs : strOrNone (getField
      [("sql", JsValue.str ""), ("paramValues", JsValue.arr []), ("error", JsValue.str res)] "sql") :=
    Or.inr ⟨"", rfl⟩
  have he : strOrNone (getField
      [("sql", JsValue.str ""), ("paramValues", JsValue.arr []), ("error", JsValue.str res)] "error") :=
    Or.inr ⟨res, rfl⟩
  rw [flagCheck_eq hs he]
  have h1 : prohibitedOpt (getField
      [("sql", JsValue.str ""), ("paramValues", JsValue.arr []), ("error", JsValue.str res)] "sql")
      = false := rfl
  have h2 : prohibitedOpt (getField
      [("sql", JsValue.str ""), ("paramValues", JsValue.arr []), ("error", JsValue.str res)] "error")
      = isProhibitedQuery res := rfl
  rw [h1, h2, Bool.false_or]

/-- Evaluation of `getSQL` on the fallback (non-JSON-shaped reply) path. -/
theorem getSQLModel_fallback {res : String} (hshape : jsonShaped res = false)
    (schema : String) (parseFn : String → Except String Obj) :
    getSQLModel (Except.ok schema) (Except.ok res) parseFn
      = Except.ok (if isProhibitedQuery res then
          [("sql", JsValue.str ""), ("paramValues", JsValue.arr []),
           ("error", JsValue.str "Prohibited query.")]
        else
          [("sql", JsValue.str ""), ("paramValues", JsValue.arr []),
           ("error", JsValue.str res)]) := by
  simp only [getSQLModel, hshape, Bool.false_eq_true, if_false, setField_default_error,
    flagCheck_fallback]
  cases hp : isProhibitedQuery res with
  | true => simp [setField]
  | false => simp

/-- Evaluation of `getSQL` on the parse path. -/
theorem getSQLModel_parsed {res : String} (hshape : jsonShaped res = true)
    (schema : String) {parseFn : String → Except String Obj} {j : Obj}
    (hparse : parseFn res = Except.ok j) :
    getSQLModel (Except.ok schema) (Except.ok res) parseFn
      = match flagCheck j with
        | Except.error _ => Except.ok j
        | Except.ok true =>
          Except.ok (setField (setField j "sql" (JsValue.str ""))
            "error" (JsValue.str "Prohibited query."))
        | Except.ok false => Except.ok j := by
  simp only [getSQLModel, hshape, if_true, hparse]

/-- C1 (amended): within the try block nothing escapes `getSQL`: once the
schema read succeeded the function never rejects, a thrown completion
call yields the default all-empty result, and a `JSON.parse` failure on
a brace-shaped reply also yields the default all-empty result.  (The
schema read itself happens before the try block; its failure propagates,
see the counterexample.) -/
theorem getSQL_try_swallows (schema : String) (callResult : Except String String)
    (parseFn : String → Except String Obj) :
    (∀ e, getSQLModel (Except.ok schema) callResult parseFn ≠ Except.error e) ∧
    (∀ e, callResult = Except.error e →
      getSQLModel (Except.ok schema) callResult parseFn = Except.ok defaultQueryData) ∧
    (∀ res pe, callResult = Except.ok res → jsonShaped res = true →
      parseFn res = Except.error pe →
      getSQLModel (Except.ok schema) callResult parseFn = Except.ok defaultQueryData) := by
  refine ⟨?_, ?_, ?_⟩
  · intro e h
    cases callResult with
    | error e' => exact Except.noConfusion h
    | ok results =>
      by_cases hshape : jsonShaped results = true
      · cases hp : parseFn results with
        | error pe => simp [getSQLModel, hshape, hp] at h
        | ok j =>
          cases hf : flagCheck j with
          | error fe => simp [getSQLModel, hshape, hp, hf] at h
          | ok b => cases b <;> simp [getSQLModel, hshape, hp, hf] at h
      · have hsf : jsonShaped results = false := by
          revert hshape
          cases jsonShaped results <;> simp
        cases hf : flagCheck (setField defaultQueryData "error" (JsValue.str results)) with
        | error fe => simp [getSQLModel, hsf, hf] at h
        | ok b => cases b <;> simp [getSQLModel, hsf, hf] at h
  · intro e he
    subst he
    rfl
  · intro res pe hc hshape hp
    subst hc
    simp only [getSQLModel, hshape, if_true, hp]

/-- C1 counterexample: a failed `db.schema` read happens before the try
block of `getSQL` and propagates to the caller as a rejection instead of
being swallowed into the default all-empty result. -/
theorem getSQL_read_failure_throws :
    getSQLModel (Except.error "ENOENT: no such file or directory, open db.schema")
        (Except.ok "") (fun _ => Except.error "unused")
      = Except.error "ENOENT: no such file or directory, open db.schema" ∧
    getSQLModel (Except.error "ENOENT: no such file or directory, open db.schema")
        (Except.ok "") (fun _ => Except.error "unused")
      ≠ Except.ok defaultQueryData :=
  ⟨rfl, fun h => Except.noConfusion h⟩

/-- C1 witness: a thrown completion call is swallowed into the default
result. -/
theorem getSQL_try_swallows_witness :
    getSQLModel (Except.ok "") (Except.error "network failure")
        (fun _ => Except.error "unused")
      = Except.ok defaultQueryData :=
  (getSQL_try_swallows "" (Except.error "network failure")
    (fun _ => Except.error "unused")).2.1 "network failure" rfl

/-- C6 (amended): a completion reply that is not brace-shaped lands in
the `error` field with `sql` and `paramValues` at their defaults —
unless the reply itself contains a prohibited keyword, in which case the
Safety Filter rewrites `error` to `Prohibited query.`. -/
theorem getSQL_fallback_error_field (schema res : String)
    (parseFn : String → Except String Obj) (hshape : jsonShaped res = false) :
    (isProhibitedQuery res = false →
      getSQLModel (Except.ok schema) (Except.ok res) parseFn
        = Except.ok [("sql", JsValue.str ""), ("paramValues", JsValue.arr []),
            ("error", JsValue.str res)]) ∧
    (isProhibitedQuery res = true →
      getSQLModel (Except.ok schema) (Except.ok res) parseFn
        = Except.ok [("sql", JsValue.str ""), ("paramValues", JsValue.arr []),
            ("error", JsValue.str "Prohibited query.")]) := by
  constructor
  · intro hp
    rw [getSQLModel_fallback hshape, hp]
    simp
  · intro hp
    rw [getSQLModel_fallback hshape, hp]
    simp

/-- C6 counterexample: the non-JSON reply `I cannot update that`
contains the keyword `update`, so `getSQL` returns
`error = 'Prohibited query.'` instead of placing the whole reply in the
error field. -/
theorem getSQL_fallback_prohibited_counterexample :
    getSQLModel (Except.ok "") (Except.ok "I cannot update that")
        (fun _ => Except.error "unused")
      = Except.ok [("sql", JsValue.str ""), ("paramValues", JsValue.arr []),
          ("error", JsValue.str "Prohibited query.")] ∧
    ("Prohibited query." : String) ≠ "I cannot update that" :=
  ⟨rfl, by decide⟩

/-- C6 witness: the claim's own example reply, which contains no
prohibited keyword. -/
theorem getSQL_fallback_error_field_witness :
    getSQLModel (Except.ok "") (Except.ok "I cannot answer that")
        (fun _ => Except.error "unused")
      = Except.ok [("sql", JsValue.str ""), ("paramValues", JsValue.arr []),
          ("error", JsValue.str "I cannot answer that")] :=
  (getSQL_fallback_error_field "" "I cannot answer that"
    (fun _ => Except.error "unused") (by decide)).1 (by decide)

/-- C4 (amended): the invariant `error non-empty implies sql empty`
holds on the two paths the spec names — the no-JSON fallback path always
returns `sql = ''`, and a Safety-Filter hit forces `sql = ''` and
`error = 'Prohibited query.'` — but a successfully parsed, unflagged
reply is returned verbatim and may violate it (see the
counterexample). -/
theorem getSQL_invariant_on_guarded_paths (schema res : String)
    (parseFn : String → Except String Obj) :
    (jsonShaped res = false →
      ∀ q, getSQLModel (Except.ok schema) (Except.ok res) parseFn = Except.ok q →
        getField q "sql" = some (JsValue.str "")) ∧
    (∀ j, jsonShaped res = true → parseFn res = Except.ok j →
      flagCheck j = Except.ok true →
      ∀ q, getSQLModel (Except.ok schema) (Except.ok res) parseFn = Except.ok q →
        getField q "sql" = some (JsValue.str "") ∧
        getField q "error" = some (JsValue.str "Prohibited query.")) := by
  constructor
  · intro hshape q hq
    rw [getSQLModel_fallback hshape] at hq
    cases hp : isProhibitedQuery res with
    | true =>
      rw [hp] at hq
      simp only [if_true] at hq
      cases hq
      rfl
    | false =>
      rw [hp] at hq
      simp only [Bool.false_eq_true, if_false] at hq
      cases hq
      rfl
  · intro j hshape hparse hflag q hq
    rw [getSQLModel_parsed hshape schema hparse, hflag] at hq
    cases hq
    constructor
    · rw [getField_setField_ne _ _ _ _ (by decide), getField_setField_same]
    · rw [getField_setField_same]

/-- C4 counterexample: a parsed reply carrying both a non-empty benign
`sql` and a non-empty benign `error` is returned verbatim, with
`error` non-empty and `sql` non-empty — violating the invariant. -/
theorem getSQL_invariant_counterexample :
    getSQLModel (Except.ok "") (Except.ok "\x7b\"sql\":\"select 1\",\"error\":\"x\"\x7d")
        (parseOracle "\x7b\"sql\":\"select 1\",\"error\":\"x\"\x7d"
          [("sql", JsValue.str "select 1"), ("error", JsValue.str "x")])
      = Except.ok [("sql", JsValue.str "select 1"), ("error", JsValue.str "x")] ∧
    getField [("sql", JsValue.str "select 1"), ("error", JsValue.str "x")] "error"
      = some (JsValue.str "x") ∧
    ("x" : String) ≠ "" ∧
    getField [("sql", JsValue.str "select 1"), ("error", JsValue.str "x")] "sql"
      = some (JsValue.str "select 1") ∧
    ("select 1" : String) ≠ "" :=
  ⟨rfl, rfl, by decide, rfl, by decide⟩

/-- C4 witness: the fallback path at a concrete benign reply. -/
theorem getSQL_invariant_on_guarded_paths_witness :
    getField [("sql", JsValue.str ""), ("paramValues", JsValue.arr []),
      ("error", JsValue.str "hi")] "sql" = some (JsValue.str "") :=
  (getSQL_invariant_on_guarded_paths "" "hi" (fun _ => Except.error "unused")).1
    (by decide) _ rfl

/-- C8: when the Safety Filter flags the parsed reply's `sql` or `error`
field (both being strings or absent), `getSQL` forces `sql = ''` and
`error = 'Prohibited query.'`, discarding the model's values. -/
theorem getSQL_prohibited_forces (schema res : String)
    (parseFn : String → Except String Obj) (j : Obj)
    (hshape : jsonShaped res = true) (hparse : parseFn res = Except.ok j)
    (hsql : strOrNone (getField j "sql")) (herr : strOrNone (getField j "error"))
    (hflag : (prohibitedOpt (getField j "sql") || prohibitedOpt (getField j "error")) = true) :
    getSQLModel (Except.ok schema) (Except.ok res) parseFn
      = Except.ok (setField (setField j "sql" (JsValue.str ""))
          "error" (JsValue.str "Prohibited query.")) ∧
    getField (setField (setField j "sql" (JsValue.str ""))
        "error" (JsValue.str "Prohibited query.")) "sql" = some (JsValue.str "") ∧
    getField (setField (setField j "sql" (JsValue.str ""))
        "error" (JsValue.str "Prohibited query.")) "error"
      = some (JsValue.str "Prohibited query.") := by
  have hfc : flagCheck j = Except.ok true := by
    rw [flagCheck_eq hsql herr, hflag]
  refine ⟨?_, ?_, ?_⟩
  · rw [getSQLModel_parsed hshape schema hparse, hfc]
  · rw [getField_setField_ne _ _ _ _ (by decide), getField_setField_same]
  · rw [getField_setField_same]

/-- C8 witness: the claim's example reply with a `DROP TABLE` statement
is rewritten to the forced prohibited result. -/
theorem getSQL_prohibited_forces_witness :
    getSQLModel (Except.ok "")
        (Except.ok "\x7b\"sql\":\"DROP TABLE users\",\"paramValues\":[]\x7d")
        (parseOracle "\x7b\"sql\":\"DROP TABLE users\",\"paramValues\":[]\x7d"
          [("sql", JsValue.str "DROP TABLE users"), ("paramValues", JsValue.arr [])])
      = Except.ok [("sql", JsValue.str ""), ("paramValues", JsValue.arr []),
          ("error", JsValue.str "Prohibited query.")] :=
  (getSQL_prohibited_forces ""
    "\x7b\"sql\":\"DROP TABLE users\",\"paramValues\":[]\x7d"
    (parseOracle "\x7b\"sql\":\"DROP TABLE users\",\"paramValues\":[]\x7d"
      [("sql", JsValue.str "DROP TABLE users"), ("paramValues", JsValue.arr [])])
    [("sql", JsValue.str "DROP TABLE users"), ("paramValues", JsValue.arr [])]
    (by decide) rfl (Or.inr ⟨"DROP TABLE users", rfl⟩) (Or.inl rfl) (by decide)).1

/-- C10 (amended): a brace-shaped reply whose parsed object lacks
`paramValues` replaces the default result wholesale, so the returned
record has no `paramValues` value; and unless the Safety Filter fires
(which rewrites `sql` and adds `error = 'Prohibited query.'`), the
parsed object is returned verbatim, so it also has no `error` field
unless the reply supplied one. -/
theorem getSQL_wholesale_replace (schema res : String)
    (parseFn : String → Except String Obj) (j : Obj)
    (hshape : jsonShaped res = true) (hparse : parseFn res = Except.ok j)
    (hpv : getField j "paramValues" = none) :
    (∀ q, getSQLModel (Except.ok schema) (Except.ok res) parseFn = Except.ok q →
      getField q "paramValues" = none) ∧
    (flagCheck j ≠ Except.ok true →
      getSQLModel (Except.ok schema) (Except.ok res) parseFn = Except.ok j) := by
  constructor
  · intro q hq
    rw [getSQLModel_parsed hshape schema hparse] at hq
    cases hf : flagCheck j with
    | error fe =>
      rw [hf] at hq
      cases hq
      exact hpv
    | ok b =>
      cases b
      · rw [hf] at hq
        cases hq
        exact hpv
      · rw [hf] at hq
        cases hq
        rw [getField_setField_ne _ _ _ _ (by decide),
          getField_setField_ne _ _ _ _ (by decide)]
        exact hpv
  · intro hnf
    rw [getSQLModel_parsed hshape schema hparse]
    cases hf : flagCheck j with
    | error fe => rfl
    | ok b =>
      cases b
      · rfl
      · exact absurd hf hnf

/-- C10 counterexample: a parsed reply lacking both `paramValues` and
`error` that trips the Safety Filter comes back WITH an `error` field
(`'Prohibited query.'`) the reply never supplied. -/
theorem getSQL_wholesale_replace_counterexample :
    getSQLModel (Except.ok "") (Except.ok "\x7b\"sql\":\"drop table x\"\x7d")
        (parseOracle "\x7b\"sql\":\"drop table x\"\x7d" [("sql", JsValue.str "drop table x")])
      = Except.ok [("sql", JsValue.str ""), ("error", JsValue.str "Prohibited query.")] ∧
    getField [("sql", JsValue.str "drop table x")] "error" = none ∧
    getField [("sql", JsValue.str ""), ("error", JsValue.str "Prohibited query.")] "error"
      = some (JsValue.str "Prohibited query.") :=
  ⟨rfl, rfl, rfl⟩

/-- C10 witness: the claim's example reply, benign, comes back verbatim
with no `paramValues` and no `error` field. -/
theorem getSQL_wholesale_replace_witness :
    getSQLModel (Except.ok "") (Except.ok "\x7b\"sql\":\"SELECT 1\"\x7d")
        (parseOracle "\x7b\"sql\":\"SELECT 1\"\x7d" [("sql", JsValue.str "SELECT 1")])
      = Except.ok [("sql", JsValue.str "SELECT 1")] :=
  (getSQL_wholesale_replace "" "\x7b\"sql\":\"SELECT 1\"\x7d"
    (parseOracle "\x7b\"sql\":\"SELECT 1\"\x7d" [("sql", JsValue.str "SELECT 1")])
    [("sql", JsValue.str "SELECT 1")] (by decide) rfl rfl).2
    (fun h => by
      have : flagCheck [("sql", JsValue.str "SELECT 1")] = Except.ok false := rfl
      rw [this] at h
      exact absurd (Except.ok.injEq _ _ ▸ h) (by decide))

/-- C2 (code bug): the source executes
`content = \x7b content, ...JSON.parse(results) \x7d` — nesting the old
defaults under a new `content` key instead of spreading them
(`...content`) — so for the claim's example reply the result has no
top-level `email` or `error` field and an extra `content` field, while
`status` is still set to `true`. -/
theorem completeEmailSMS_nests_defaults :
    completeEmailSMSMessagesModel
        (Except.ok "\x7b\"emailSubject\":\"Hi\",\"emailBody\":\"Hello\",\"sms\":\"Hi\"\x7d")
        (parseOracle "\x7b\"emailSubject\":\"Hi\",\"emailBody\":\"Hello\",\"sms\":\"Hi\"\x7d"
          [("emailSubject", JsValue.str "Hi"), ("emailBody", JsValue.str "Hello"),
           ("sms", JsValue.str "Hi")])
      = [("content", JsValue.obj defaultEmailSms), ("emailSubject", JsValue.str "Hi"),
         ("emailBody", JsValue.str "Hello"), ("sms", JsValue.str "Hi"),
         ("status", JsValue.bool true)] ∧
    getField [("content", JsValue.obj defaultEmailSms), ("emailSubject", JsValue.str "Hi"),
        ("emailBody", JsValue.str "Hello"), ("sms", JsValue.str "Hi"),
        ("status", JsValue.bool true)] "email" = none ∧
    getField [("content", JsValue.obj defaultEmailSms), ("emailSubject", JsValue.str "Hi"),
        ("emailBody", JsValue.str "Hello"), ("sms", JsValue.str "Hi"),
        ("status", JsValue.bool true)] "error" = none ∧
    getField [("content", JsValue.obj defaultEmailSms), ("emailSubject", JsValue.str "Hi"),
        ("emailBody", JsValue.str "Hello"), ("sms", JsValue.str "Hi"),
        ("status", JsValue.bool true)] "content" = some (JsValue.obj defaultEmailSms) ∧
    getField [("content", JsValue.obj defaultEmailSms), ("emailSubject", JsValue.str "Hi"),
        ("emailBody", JsValue.str "Hello"), ("sms", JsValue.str "Hi"),
        ("status", JsValue.bool true)] "status" = some (JsValue.bool true) :=
  ⟨rfl, rfl, rfl, rfl, rfl⟩

/-- C5 (amended): the field `status` is `true` exactly when the completion call
succeeded, the reply passed the brace-shape check, and `JSON.parse`
succeeded; when the call succeeded but the reply failed the shape check
the raw reply lands in `error`; a thrown call or a parse failure leaves
the whole default result (with `error` still `''`). -/
theorem emailSMS_status_iff (callResult : Except String String)
    (parseFn : String → Except String Obj) :
    (getField (completeEmailSMSMessagesModel callResult parseFn) "status"
        = some (JsValue.bool true)
      ↔ ∃ res j, callResult = Except.ok res ∧ jsonShaped res = true ∧
          parseFn res = Except.ok j) ∧
    (∀ res, callResult = Except.ok res → jsonShaped res = false →
      completeEmailSMSMessagesModel callResult parseFn
        = [("status", JsValue.bool false), ("email", JsValue.str ""),
           ("sms", JsValue.str ""), ("error", JsValue.str res)]) ∧
    (∀ e, callResult = Except.error e →
      completeEmailSMSMessagesModel callResult parseFn = defaultEmailSms) ∧
    (∀ res pe, callResult = Except.ok res → jsonShaped res = true →
      parseFn res = Except.error pe →
      completeEmailSMSMessagesModel callResult parseFn = defaultEmailSms) := by
  refine ⟨?_, ?_, ?_, ?_⟩
  · constructor
    · intro h
      cases hc : callResult with
      | error e =>
        subst hc
        simp [completeEmailSMSMessagesModel, defaultEmailSms, getField] at h
      | ok res =>
        subst hc
        by_cases hshape : jsonShaped res = true
        · cases hp : parseFn res with
          | error pe =>
            simp [completeEmailSMSMessagesModel, hshape, hp, defaultEmailSms, getField] at h
          | ok j => exact ⟨res, j, rfl, hshape, hp⟩
        · exfalso
          have hsf : jsonShaped res = false := by
            revert hshape
            cases jsonShaped res <;> simp
          simp only [completeEmailSMSMessagesModel, hsf, Bool.false_eq_true, if_false] at h
          have : setField defaultEmailSms "error" (JsValue.str res)
              = [("status", JsValue.bool false), ("email", JsValue.str ""),
                 ("sms", JsValue.str ""), ("error", JsValue.str res)] := by
            simp [defaultEmailSms, setField]
          rw [this] at h
          simp [getField] at h
    · rintro ⟨res, j, hc, hshape, hp⟩
      subst hc
      simp only [completeEmailSMSMessagesModel, hshape, if_true, hp]
      exact getField_setField_same _ _ _
  · intro res hc hsf
    subst hc
    simp only [completeEmailSMSMessagesModel, hsf, Bool.false_eq_true, if_false]
    simp [defaultEmailSms, setField]
  · intro e hc
    subst hc
    rfl
  · intro res pe hc hshape hp
    subst hc
    simp only [completeEmailSMSMessagesModel, hshape, if_true, hp]

/-- C5 counterexample: the brace-shaped but malformed reply
`\x7bbad\x7d` makes `JSON.parse` throw: the result keeps `status =
false` but its `error` field is the default `''`, which is neither the
raw reply nor a failure reason. -/
theorem emailSMS_parse_failure_counterexample :
    completeEmailSMSMessagesModel (Except.ok "\x7bbad\x7d")
        (fun _ => Except.error "SyntaxError: Unexpected token b")
      = defaultEmailSms ∧
    getField defaultEmailSms "status" = some (JsValue.bool false) ∧
    getField defaultEmailSms "error" = some (JsValue.str "") ∧
    ("" : String) ≠ "\x7bbad\x7d" :=
  ⟨rfl, rfl, rfl, by decide⟩

/-- C5 witness: a non-JSON reply lands verbatim in the `error` field
with `status` still `false`. -/
theorem emailSMS_status_iff_witness :
    completeEmailSMSMessagesModel (Except.ok "no json here")
        (fun _ => Except.error "unused")
      = [("status", JsValue.bool false), ("email", JsValue.str ""),
         ("sms", JsValue.str ""), ("error", JsValue.str "no json here")] :=
  (emailSMS_status_iff (Except.ok "no json here") (fun _ => Except.error "unused")).2.1
    "no json here" rfl (by decide)

/-- C3 (amended): the Azure-path post-processing returns the trimmed
content unchanged when it lacks a brace pair and reduces it via the
extractor exactly when it contains both braces; the direct-provider
path applies the extractor unconditionally first, so content lacking a
brace pair comes back as the empty string instead of unchanged. -/
theorem completionPost_brace_behavior (content : String) :
    ((lbrace ∉ content.toList ∨ rbrace ∉ content.toList) →
      getAzureOpenAICompletionPost content = content ∧
      getOpenAICompletionPost content = "") ∧
    (lbrace ∈ content.toList → rbrace ∈ content.toList →
      getAzureOpenAICompletionPost content = extractJson content) := by
  constructor
  · intro h
    constructor
    · have hcond : (content != "" && jsIncludes content "\x7b" && jsIncludes content "\x7d")
          = false := by
        rcases h with hL | hR
        · have : jsIncludes content "\x7b" = false := by
            cases hi : jsIncludes content "\x7b" with
            | true => exact absurd ((jsIncludes_lbrace_iff content).mp hi) hL
            | false => rfl
          simp [this]
        · have : jsIncludes content "\x7d" = false := by
            cases hi : jsIncludes content "\x7d" with
            | true => exact absurd ((jsIncludes_rbrace_iff content).mp hi) hR
            | false => rfl
          simp [this]
      simp [getAzureOpenAICompletionPost, hcond]
    · have hext : extractJson content = "" := extractJson_no_brace h
      simp [getOpenAICompletionPost, hext]
  · intro hL hR
    have hne : content ≠ "" := by
      intro hc
      subst hc
      simp at hL
    have h1 : jsIncludes content "\x7b" = true := (jsIncludes_lbrace_iff content).mpr hL
    have h2 : jsIncludes content "\x7d" = true := (jsIncludes_rbrace_iff content).mpr hR
    have hcond : (content != "" && jsIncludes content "\x7b" && jsIncludes content "\x7d")
        = true := by
      simp [h1, h2, hne]
    simp [getAzureOpenAICompletionPost, hcond]

/-- C3 counterexample: `hello` contains neither brace, yet the
direct-provider path returns `''` rather than the content unchanged. -/
theorem openai_post_counterexample :
    getOpenAICompletionPost "hello" = "" ∧
    ("hello" : String) ≠ "" ∧
    jsIncludes "hello" "\x7b" = false ∧
    jsIncludes "hello" "\x7d" = false :=
  ⟨rfl, by decide, rfl, rfl⟩

/-- C3 witness: both conjuncts applied at concrete contents. -/
theorem completionPost_brace_behavior_witness :
    (getAzureOpenAICompletionPost "hello" = "hello" ∧
      getOpenAICompletionPost "hello" = "") ∧
    getAzureOpenAICompletionPost "a\x7bb\x7dc" = extractJson "a\x7bb\x7dc" :=
  ⟨(completionPost_brace_behavior "hello").1 (Or.inl (by decide)),
   (completionPost_brace_behavior "a\x7bb\x7dc").2 (by decide) (by decide)⟩

/-- C7: the function `isProhibitedQuery` returns `true` exactly when the lower-cased
input contains one of the fixed keywords as a substring; in particular
it is case-insensitive (`DROP TABLE x` and `drop table x` are both
flagged), empty and falsy inputs are not flagged, and the benign read
query `SELECT name FROM users WHERE id = $1` is not flagged. -/
theorem isProhibitedQuery_spec (s : String) :
    (isProhibitedQuery s = true
      ↔ ∃ k ∈ prohibitedKeywords, k.toList <:+: (jsToLower s).toList) ∧
    isProhibitedQuery "DROP TABLE x" = true ∧
    isProhibitedQuery "drop table x" = true ∧
    isProhibitedQuery "" = false ∧
    isProhibitedQueryJs none = Except.ok false ∧
    isProhibitedQueryJs (some JsValue.null) = Except.ok false ∧
    isProhibitedQuery "SELECT name FROM users WHERE id = $1" = false := by
  refine ⟨?_, by decide, by decide, rfl, rfl, rfl, by decide⟩
  by_cases hs : s = ""
  · subst hs
    constructor
    · intro h
      simp [isProhibitedQuery] at h
    · rintro ⟨k, hk, hinf⟩
      have hnil : (jsToLower "").toList = [] := rfl
      rw [hnil] at hinf
      have hke : k.toList = [] := List.eq_nil_of_infix_nil hinf
      have : k = "" := by
        cases k with
        | mk data =>
          simp [String.toList] at hke
          rw [hke]
      subst this
      revert hk
      decide
  · rw [isProhibitedQuery, if_neg hs, List.any_eq_true]
    constructor
    · rintro ⟨k, hk, hinc⟩
      exact ⟨k, hk, (isInfixB_iff _ _).mp hinc⟩
    · rintro ⟨k, hk, hinf⟩
      exact ⟨k, hk, (isInfixB_iff _ _).mpr hinf⟩

/-- C9: the function `extractJson` returns the balanced one-level brace substring at
the leftmost position carrying one (empty if none exists); consequently
an input missing either brace yields `''`, and noise-wrapped balanced
text is returned exactly. -/
theorem extractJson_spec (s : String) :
    ((extractJson s = "" ∧ ∀ i m, BalancedOne m → ¬ m <+: s.toList.drop i) ∨
     (∃ i, BalancedOne (extractJson s).toList ∧
        (extractJson s).toList <+: s.toList.drop i ∧
        ∀ j, j < i → ∀ m, BalancedOne m → ¬ m <+: s.toList.drop j)) ∧
    ((lbrace ∉ s.toList ∨ rbrace ∉ s.toList) → extractJson s = "") ∧
    (∀ t : String, BalancedOne t.toList → extractJson ("noise" ++ t ++ "noise") = t) := by
  refine ⟨?_, ?_, ?_⟩
  · rcases extractJson_main s with h | h
    · exact Or.inl ⟨h.1, fun i m hm hpre => h.2 i m hm hpre⟩
    · exact Or.inr h
  · exact extractJson_no_brace
  · intro t ht
    exact extractJson_noise t ht

/-- C9 witness: a brace-free input extracts to empty, and a noise-wrapped
balanced object comes back exactly. -/
theorem extractJson_spec_witness :
    extractJson "abc" = "" ∧
    extractJson ("noise" ++ "\x7b\x7d" ++ "noise") = "\x7b\x7d" :=
  ⟨(extractJson_spec "abc").2.1 (Or.inl (by decide)),
   (extractJson_spec "x").2.2 "\x7b\x7d" ⟨[], rfl, BodyItems.nil⟩⟩
